import Mathlib

/-!
Verification development for the map-search repository.

The repository consists of four TypeScript files:
  * `services/geminiService.ts` — `parseCoordinatesFromText`, a free-text
    extractor that scans an AI response for `(lat: X, lng: Y)` fragments
    using a JavaScript regular expression executed in a `regex.exec` loop;
  * `App.tsx` — the orchestrator component holding the published result
    (`places`, `summary`, `sources`), the viewport (`mapCenter`, `mapZoom`)
    and the handlers `handleSearch`, `handleMapMove`, …;
  * `components/MapComponent.tsx` — `MapUpdater`, the effect that decides
    between a fit-to-bounds transition, an animated fly-to, or no move;
  * `components/ChatInterface.tsx` — `handleSaveAllToDatabase` and
    `removeFromDatabase`, the saved-places persistence operations.

Everything below is a shallow embedding of that code.  JavaScript numbers
are modelled exactly: the extractor's values as scaled decimal integers
(`Decimal`, kernel-computable), app-level coordinates as `ℚ`, and values
that may be `NaN` as `Option ℚ`.  The regular expression is embedded via a
small backtracking matcher in continuation-passing style that follows
ECMAScript semantics (leftmost match, ordered alternatives, greedy and lazy
quantifiers with full backtracking); every quantifier in the source pattern
ranges over a single-character class, so all combinators are structurally
recursive and no fuel is needed.
-/

namespace MapApp

/-! ### Character classes of the source regular expression -/

/-- ECMAScript `\s` (WhiteSpace ∪ LineTerminator), by code point. -/
def wsP (c : Char) : Bool :=
  c.toNat == 32 || c.toNat == 9 || c.toNat == 10 || c.toNat == 11 ||
  c.toNat == 12 || c.toNat == 13 || c.toNat == 0xa0 || c.toNat == 0x1680 ||
  (0x2000 ≤ c.toNat && c.toNat ≤ 0x200a) || c.toNat == 0x2028 ||
  c.toNat == 0x2029 || c.toNat == 0x202f || c.toNat == 0x205f ||
  c.toNat == 0x3000 || c.toNat == 0xfeff

/-- ECMAScript `.` without the `s` flag: anything but a line terminator. -/
def dotP (c : Char) : Bool :=
  !(c.toNat == 10 || c.toNat == 13 || c.toNat == 0x2028 || c.toNat == 0x2029)

/-- ECMAScript `\d` (the ASCII digits). -/
def digitP (c : Char) : Bool := 48 ≤ c.toNat && c.toNat ≤ 57

/-- The class `[\.\!\?]` of the source pattern. -/
def punctP (c : Char) : Bool := c == '.' || c == '!' || c == '?'

/-! ### Backtracking matcher

Captured groups are recorded as absolute `[start, stop)` spans into the
subject text.  The source pattern has five groups:
`(.*?)` (1), lat `(-?\d+(\.\d+)?)` (2, fraction 3), lng likewise (4, 5). -/

structure Caps where
  g1 : Option (Nat × Nat) := none
  g2 : Option (Nat × Nat) := none
  g3 : Option (Nat × Nat) := none
  g4 : Option (Nat × Nat) := none
  g5 : Option (Nat × Nat) := none
deriving Repr, DecidableEq

def Caps.setG1 (v : Nat × Nat) (c : Caps) : Caps := { c with g1 := some v }
def Caps.setG2 (v : Nat × Nat) (c : Caps) : Caps := { c with g2 := some v }
def Caps.setG3 (v : Nat × Nat) (c : Caps) : Caps := { c with g3 := some v }
def Caps.setG4 (v : Nat × Nat) (c : Caps) : Caps := { c with g4 := some v }
def Caps.setG5 (v : Nat × Nat) (c : Caps) : Caps := { c with g5 := some v }

/-- A successful match attempt: position one past the matched text, plus
the recorded capture spans. -/
structure MatchRes where
  stop : Nat
  caps : Caps
deriving Repr, DecidableEq

/-- A matcher continuation: remaining suffix, absolute position of that
suffix, captures so far. -/
abbrev K := List Char → Nat → Caps → Option MatchRes

/-- Accept here: the end of the whole pattern. -/
def kdone : K := fun _ pos caps => some ⟨pos, caps⟩

/-- A single literal character. -/
def lit1 (c : Char) (k : K) : K := fun s pos caps =>
  match s with
  | x :: rest => if x == c then k rest (pos + 1) caps else none
  | [] => none

/-- A single character from a class. -/
def charP (p : Char → Bool) (k : K) : K := fun s pos caps =>
  match s with
  | x :: rest => if p x then k rest (pos + 1) caps else none
  | [] => none

/-- A case-insensitive literal word (the `i` flag of the source pattern;
ASCII canonicalisation). -/
def litCI : List Char → (k : K) → K
  | [], k => k
  | c :: cs, k => charP (fun x => x.toLower == c.toLower) (litCI cs k)

/-- Ordered alternation `a|b`: the left alternative is preferred, with full
backtracking into the continuation. -/
def altK (a b : K → K) (k : K) : K := fun s pos caps =>
  a k s pos caps <|> b k s pos caps

/-- Greedy option `(…)?`: first try to take the body, then to skip it. -/
def optP (body : K → K) (k : K) : K := fun s pos caps =>
  body k s pos caps <|> k s pos caps

/-- Lazy star over a character class (`(.*?)` and `.*?`): first try the
continuation, then consume one more character. -/
def starL (p : Char → Bool) (k : K) : List Char → Nat → Caps → Option MatchRes
  | [], pos, caps => k [] pos caps
  | x :: rest, pos, caps =>
    k (x :: rest) pos caps <|>
      (if p x then starL p k rest (pos + 1) caps else none)

/-- Greedy star over a character class (`\s*`, the tail of `\d+`): first
try to consume one more character, then stop. -/
def starG (p : Char → Bool) (k : K) : List Char → Nat → Caps → Option MatchRes
  | [], pos, caps => k [] pos caps
  | x :: rest, pos, caps =>
    if p x then starG p k rest (pos + 1) caps <|> k (x :: rest) pos caps
    else k (x :: rest) pos caps

/-- Greedy plus over a character class (`\s+`, `\d+`). -/
def plusG (p : Char → Bool) (k : K) : K := charP p (fun s pos caps => starG p k s pos caps)

/-- A numbered capture group. -/
def grp (set : Nat × Nat → Caps → Caps) (body : K → K) (k : K) : K :=
  fun s pos caps =>
    body (fun s2 pos2 caps2 => k s2 pos2 (set (pos, pos2) caps2)) s pos caps

/-- `^` without the `m` flag: only the very start of the input. -/
def bosK (k : K) : K := fun s pos caps => if pos == 0 then k s pos caps else none

/-! ### The exact pattern of `geminiService.ts`

```
/(?:^|\n|[\.\!\?]\s+)(?:\*\*)?(.*?)(?:\*\*)?.*?\((?:lat:|latitude:)\s*(-?\d+(\.\d+)?),\s*(?:lng:|longitude:)\s*(-?\d+(\.\d+)?)\)/gi
```
-/

/-- `(?:^|\n|[\.\!\?]\s+)` — alternatives tried left to right. -/
def startPat : K → K :=
  altK bosK (altK (lit1 '\n') (fun k => charP punctP (plusG wsP k)))

/-- `(?:\*\*)?` body. -/
def boldPat : K → K := fun k => lit1 '*' (lit1 '*' k)

/-- What follows the integer digits of `(-?\d+(\.\d+)?)`: the optional
fraction `(\.\d+)?`, then the closing of the outer capture group (whose
start position is `start`), then the rest of the pattern. -/
def numTail (setW setF : Nat × Nat → Caps → Caps) (k : K) (start : Nat) : K :=
  optP (grp setF (fun k3 => lit1 '.' (plusG digitP k3)))
    (fun s2 pos2 caps2 => k s2 pos2 (setW (start, pos2) caps2))

/-- `(-?\d+(\.\d+)?)` with the outer and the fraction group setters
(`grp` unfolded so that the continuation after the integer digits has the
name `numTail`). -/
def numPat (setW setF : Nat × Nat → Caps → Caps) : K → K := fun k s pos caps =>
  optP (lit1 '-') (plusG digitP (numTail setW setF k pos)) s pos caps

/-- `\((?:lat:|latitude:)\s*NUM,\s*(?:lng:|longitude:)\s*NUM\)`. -/
def annotPat : K → K := fun k =>
  lit1 '('
    (altK (litCI "lat:".toList) (litCI "latitude:".toList)
      (starG wsP
        (numPat Caps.setG2 Caps.setG3
          (lit1 ','
            (starG wsP
              (altK (litCI "lng:".toList) (litCI "longitude:".toList)
                (starG wsP
                  (numPat Caps.setG4 Caps.setG5 (lit1 ')' k)))))))))

/-- The whole source pattern. -/
def fullPat : K → K := fun k =>
  startPat
    (optP boldPat
      (grp Caps.setG1 (starL dotP)
        (optP boldPat (starL dotP (annotPat k)))))

/-- One match attempt anchored at absolute position `pos` (whose suffix is
`s`), as the ECMAScript engine performs it. -/
def tryMatch (s : List Char) (pos : Nat) : Option MatchRes :=
  fullPat kdone s pos {}

/-- Leftmost search: try `pos`, `pos+1`, … (the engine's outer loop). -/
def searchFrom : List Char → Nat → Option (Nat × MatchRes)
  | s, pos =>
    match tryMatch s pos with
    | some r => some (pos, r)
    | none =>
      match s with
      | [] => none
      | _ :: rest => searchFrom rest (pos + 1)

/-- The `while ((match = regex.exec(text)) !== null)` loop of the source:
after each match, `lastIndex` moves to the end of the match.  Every match
of this pattern consumes at least the `(`…`)` fragment, so the suffix
strictly shrinks on every iteration; the structural fuel `length + 1`
therefore never runs out, and the guard branch is unreachable — both exist
only to make the recursion structural (and hence kernel-computable). -/
def execLoopAux : Nat → List Char → Nat → List MatchRes
  | 0, _, _ => []
  | fuel + 1, s, pos =>
    match searchFrom s pos with
    | none => []
    | some (_, r) =>
      let rest := s.drop (r.stop - pos)
      if rest.length < s.length then r :: execLoopAux fuel rest r.stop
      else [r]

def execLoop (s : List Char) (pos : Nat) : List MatchRes :=
  execLoopAux (s.length + 1) s pos

/-! ### From matches to places (`parseCoordinatesFromText`) -/

/-- An exact decimal `m / 10^e`, the value `parseFloat` returns for the
digit strings this pattern captures (modelled exactly rather than as a
binary float; every comparison the app performs on these values is
order-theoretic, where the two agree). -/
structure Decimal where
  m : Int
  e : Nat
deriving Repr, DecidableEq

def Decimal.toRat (d : Decimal) : ℚ := (d.m : ℚ) / 10 ^ d.e

def digitsToNat (ds : List Char) : Nat :=
  ds.foldl (fun a c => a * 10 + (c.toNat - 48)) 0

/-- JavaScript `parseFloat`, restricted to the number grammar without an
exponent part (the captures of this pattern match `-?\d+(\.\d+)?`, so no
exponent can occur): skip leading whitespace, optional sign, integer
digits, optional fraction, ignore anything after; `none` models `NaN`. -/
def parseDecimal (s : List Char) : Option Decimal :=
  let s1 := s.dropWhile wsP
  let neg : Bool := s1.head?.any (fun c => c == '-')
  let hasSign : Bool := s1.head?.any (fun c => c == '-' || c == '+')
  let s2 := if hasSign then s1.tail else s1
  let ds := s2.takeWhile digitP
  let rest := s2.drop ds.length
  let fs :=
    if rest.head?.any (fun c => c == '.') then rest.tail.takeWhile digitP else []
  if ds = [] ∧ fs = [] then none
  else
    let mag : Int := (digitsToNat ds : Int) * 10 ^ fs.length + (digitsToNat fs : Int)
    some ⟨if neg then -mag else mag, fs.length⟩

/-- The capture's text, recovered from its span. -/
def capString (full : List Char) : Option (Nat × Nat) → Option (List Char)
  | some (a, b) => some ((full.drop a).take (b - a))
  | none => none

/-- JavaScript string truthiness of a possibly-undefined capture
(`match[2] && match[4]`). -/
def capTruthy : Option (List Char) → Bool
  | some l => !(l == [])
  | none => false

/-- JavaScript `String.prototype.trim`. -/
def jsTrim (s : List Char) : List Char :=
  ((s.dropWhile wsP).reverse.dropWhile wsP).reverse

/-- `.replace(/^[*-]\s*/, '')`. -/
def stripLeadMarker : List Char → List Char
  | [] => []
  | c :: rest => if c == '*' || c == '-' then rest.dropWhile wsP else c :: rest

/-- `.split(/[.!?]/)` — like JavaScript `split`, always at least one
segment, empty segments kept. -/
def splitPunct : List Char → List (List Char)
  | [] => [[]]
  | c :: rest =>
    if punctP c then [] :: splitPunct rest
    else
      match splitPunct rest with
      | seg :: segs => (c :: seg) :: segs
      | [] => [[c]]

/-- The name-normalisation chain of the source:
`rawName.replace(/^[*-]\s*/, '').replace(/\*+/g, '').split(/[.!?]/).pop()?.trim() || "Unknown Location"`
(`rawName` is already trimmed by the caller). -/
def cleanNameOf (rawName : List Char) : String :=
  let s1 := stripLeadMarker rawName
  let s2 := s1.filter (fun c => !(c == '*'))
  let s3 := jsTrim ((splitPunct s2).getLastD [])
  if s3 = [] then "Unknown Location" else String.mk s3

structure Coordinate where
  lat : Decimal
  lng : Decimal
deriving Repr, DecidableEq

/-- The `Place` record the extractor builds. -/
structure Place where
  id : String
  name : String
  coordinate : Coordinate
deriving Repr, DecidableEq

/-- The body of the `while` loop: for each match, trim capture 1, normalise
the name, and — if captures 2 and 4 are truthy and both `parseFloat`s are
not `NaN` — push a place whose `id` is the next value of the (random)
id generator.  `cnt` counts the pushes, i.e. the `Math.random()` calls. -/
def buildPlaces (idGen : Nat → String) (full : List Char) :
    List MatchRes → Nat → List Place
  | [], _ => []
  | r :: rest, cnt =>
    let rawName := jsTrim ((capString full r.caps.g1).getD [])
    let cleanName := cleanNameOf rawName
    let c2 := capString full r.caps.g2
    let c4 := capString full r.caps.g4
    if capTruthy c2 && capTruthy c4 then
      match parseDecimal (c2.getD []), parseDecimal (c4.getD []) with
      | some lat, some lng =>
        ⟨idGen cnt, cleanName, ⟨lat, lng⟩⟩ :: buildPlaces idGen full rest (cnt + 1)
      | _, _ => buildPlaces idGen full rest cnt
    else buildPlaces idGen full rest cnt

/-- `parseCoordinatesFromText` of `services/geminiService.ts`.  The stream
`idGen` supplies the successive results of
`Math.random().toString(36).substr(2, 9)`; everything else is a pure
function of the text. -/
def parseCoordinatesFromText (idGen : Nat → String) (text : String) : List Place :=
  buildPlaces idGen text.toList (execLoop text.toList 0) 0

/-- The observable content of an extracted place without its randomly
generated identifier. -/
def Place.record (p : Place) : String × Coordinate := (p.name, p.coordinate)

def digitChar (d : Nat) : Char := Char.ofNat (48 + d)

def natCharsAux : Nat → Nat → List Char
  | 0, _ => []
  | fuel + 1, n =>
    if n < 10 then [digitChar n] else natCharsAux fuel (n / 10) ++ [digitChar (n % 10)]

/-- The decimal numeral of `n` (`fuel = n + 1` always suffices since the
argument strictly decreases). -/
def natChars (n : Nat) : List Char := natCharsAux (n + 1) n


namespace App

/-! ### The orchestrator (`App.tsx`)

React state lives in `useState` hooks; each handler is a function from the
current state (plus its inputs) to the next state.  The `await` inside
`handleSearch` splits it into a synchronous start phase and a completion
phase that runs when the transport promise settles; the interleaving of
several in-flight queries is expressed by composing these phases in the
order the events fire on the single JavaScript thread. -/

structure LatLng where
  lat : ℚ
  lng : ℚ
deriving DecidableEq, Repr

structure GroundingSource where
  uri : String
  title : String
deriving DecidableEq, Repr

structure Place where
  id : String
  name : String
  coordinate : LatLng
  description : Option String := none
deriving DecidableEq, Repr

/-- What `sendMessageToGemini` resolves with on success. -/
structure GeminiResponse where
  text : String
  places : List Place
  sources : List GroundingSource
deriving DecidableEq, Repr

structure ViewState where
  center : LatLng
  zoom : ℚ
deriving DecidableEq, Repr

/-- The `useState` hooks plus the `searchResultsBackup` ref of `App`. -/
structure AppState where
  places : List Place
  summary : String
  sources : List GroundingSource
  isLoading : Bool
  userLocation : Option LatLng
  mapCenter : LatLng
  mapZoom : ℚ
  selectedPlaceId : Option String
  previousViewState : Option ViewState
  searchResultsBackup : Option (List Place × String × List GroundingSource)
deriving DecidableEq, Repr

/-- The synchronous prefix of `handleSearch`, up to the `await`: snapshot
the viewport, drop the backup, mark busy, and clear the published
summary/places/sources and selection. -/
def handleSearchStart (s : AppState) : AppState :=
  { s with
    previousViewState := some ⟨s.mapCenter, s.mapZoom⟩
    searchResultsBackup := none
    isLoading := true
    summary := ""
    places := []
    sources := []
    selectedPlaceId := none }

/-- The location bias `handleSearch` passes to `sendMessageToGemini`
(the `userLocation` state at dispatch time). -/
def requestBias (s : AppState) : Option LatLng := s.userLocation

/-- The fixed message of the `catch` branch of `handleSearch`. -/
def failureMessage : String := "Sorry, I couldn't find that place. Please try again."

/-- The continuation of `handleSearch` once its transport call settles:
`.ok` is the `try` tail, `.error` the `catch`, and `finally` clears the
busy flag in both cases.  No generation counter or staleness check guards
these writes. -/
def handleSearchComplete (s : AppState) : Except Unit GeminiResponse → AppState
  | .ok r =>
    { s with
      summary := r.text
      places := r.places
      sources := r.sources
      isLoading := false }
  | .error _ =>
    { s with
      summary := failureMessage
      isLoading := false }

/-- `handleMapMove` of `App.tsx`: a map gesture-completion event. -/
def handleMapMove (s : AppState) (newCenter : LatLng) (newZoom : ℚ) : AppState :=
  { s with
    userLocation := some newCenter
    mapCenter := newCenter
    mapZoom := newZoom }

end App

namespace ChatUI

/-! ### Persistence operations (`components/ChatInterface.tsx`) -/

/-- One iteration of the `places.forEach` loop of
`handleSaveAllToDatabase`: the accumulator is the grown saved list
(`newSaved`) and the count of appended places.  The duplicate test is
`p.name === place.name && Math.abs(p.coordinate.lat - place.coordinate.lat) < 0.0001`. -/
def saveAllStep (acc : List App.Place × Nat) (place : App.Place) : List App.Place × Nat :=
  let dup := acc.1.any fun p =>
    p.name == place.name && decide (|p.coordinate.lat - place.coordinate.lat| < 1 / 10000)
  if dup then acc else (acc.1 ++ [place], acc.2 + 1)

/-- `handleSaveAllToDatabase`, as the stored list it writes back and the
count it reports: start from the currently saved list and fold the current
result places through the duplicate check. -/
def handleSaveAllToDatabase (currentSaved places : List App.Place) : List App.Place × Nat :=
  places.foldl saveAllStep (currentSaved, 0)

/-- `removeFromDatabase`:
`savedPlaces.filter(p => p.id !== placeId && p.name !== placeName)`. -/
def removeFromDatabase (savedPlaces : List App.Place) (placeId placeName : String) :
    List App.Place :=
  savedPlaces.filter fun p => !(p.id == placeId) && !(p.name == placeName)

end ChatUI

namespace MapC

/-! ### The view reconciler (`components/MapComponent.tsx`, `MapUpdater`)

Coordinates here may be `NaN` (that is what `isValidLatLng` screens for),
so a JavaScript number is modelled as `Option ℚ`, `none` standing for
`NaN`.  `MapUpdater`'s effect reads the props `center`, `zoom`, `places`
and the ref `prevPlacesRef`, compares `places` against the ref by object
identity (modelled by an allocation token), and either calls
`map.fitBounds`, calls `map.flyTo`, or does nothing. -/

/-- A possibly-`NaN` latitude/longitude pair. -/
structure JLatLng where
  lat : Option ℚ
  lng : Option ℚ
deriving DecidableEq, Repr

/-- `isValidLatLng` of `MapComponent.tsx` (a number and not `NaN`). -/
def isValidLatLng (lat lng : Option ℚ) : Bool := lat.isSome && lng.isSome

structure MPlace where
  id : String
  name : String
  coordinate : JLatLng
deriving DecidableEq, Repr

/-- The `places` prop together with its object identity (JavaScript `!==`
on arrays compares references; every newly allocated array carries a fresh
token). -/
structure PlacesObj where
  ref : Nat
  items : List MPlace
deriving DecidableEq, Repr

/-- An `L.latLngBounds` rectangle. -/
structure Bounds where
  south : ℚ
  west : ℚ
  north : ℚ
  east : ℚ
deriving DecidableEq, Repr

/-- `L.latLngBounds(points)`: the smallest rectangle enclosing the points;
`isValid()` is false exactly when no point was supplied, which the model
folds into the `Option`. -/
def mkBounds : List (ℚ × ℚ) → Option Bounds
  | [] => none
  | (a, b) :: rest =>
    some <| rest.foldl
      (fun bd pt => ⟨min bd.south pt.1, min bd.west pt.2,
                     max bd.north pt.1, max bd.east pt.2⟩)
      ⟨a, b, a, b⟩

/-- A point lies inside a bounds rectangle. -/
def Bounds.contains (b : Bounds) (pt : ℚ × ℚ) : Prop :=
  b.south ≤ pt.1 ∧ pt.1 ≤ b.north ∧ b.west ≤ pt.2 ∧ pt.2 ≤ b.east

/-- The map move `MapUpdater` emits. -/
inductive Transition where
  | fitBounds (b : Bounds) (padX padY : ℕ) (maxZoom : ℚ)
  | flyTo (lat lng zoom duration : ℚ)
deriving DecidableEq, Repr

def Transition.isFitBounds : Transition → Bool
  | .fitBounds _ _ _ _ => true
  | _ => false

/-- The `validPlaces` filter of the bounds-fit branch. -/
def validItems (places : PlacesObj) : List MPlace :=
  places.items.filter fun p => isValidLatLng p.coordinate.lat p.coordinate.lng

/-- The coordinate pairs handed to `L.latLngBounds`. -/
def validPoints (places : PlacesObj) : List (ℚ × ℚ) :=
  (validItems places).map fun p => (p.coordinate.lat.getD 0, p.coordinate.lng.getD 0)

/-- The `useEffect` body of `MapUpdater`: `center`/`zoom`/`places` are the
props, `prevRef` the current value of `prevPlacesRef`, and
`mapCenter`/`mapZoom` the viewport the Leaflet map actually shows
(`map.getCenter()` / `map.getZoom()`).  Returns the emitted transition (if
any) and the new value of `prevPlacesRef`.  The comparison
`dist > 0.0001` on `Math.sqrt(dlat² + dlng²)` is expressed as
`dlat² + dlng² > 0.0001²`, which is equivalent since the square root is
monotone and both sides are nonnegative. -/
def mapUpdaterEffect (center : JLatLng) (zoom : ℚ) (places : PlacesObj)
    (prevRef : Nat) (mapCenter : JLatLng) (mapZoom : ℚ) :
    Option Transition × Nat :=
  if ¬ (isValidLatLng center.lat center.lng = true) then (none, prevRef)
  else if places.ref ≠ prevRef ∧ places.items.length > 0 then
    (if (validItems places).length > 0 then
        match mkBounds (validPoints places) with
        | some b => some (.fitBounds b 50 50 16)
        | none => none
      else none,
     places.ref)
  else
    if ¬ (isValidLatLng mapCenter.lat mapCenter.lng = true) then (none, prevRef)
    else if
        (mapCenter.lat.getD 0 - center.lat.getD 0) ^ 2 +
            (mapCenter.lng.getD 0 - center.lng.getD 0) ^ 2 > 1 / 100000000 ∨
          mapZoom ≠ zoom then
      (some (.flyTo (center.lat.getD 0) (center.lng.getD 0) zoom (3 / 2)), prevRef)
    else (none, prevRef)

end MapC

/-- A fixed sample of the orchestrator state with a published prior result,
used by concrete counterexamples. -/
def App.sampleState : App.AppState where
  places := [⟨"p1", "Cafe", ⟨1, 2⟩, none⟩]
  summary := "prior summary"
  sources := [⟨"https://example.org", "Example"⟩]
  isLoading := false
  userLocation := none
  mapCenter := ⟨0, 0⟩
  mapZoom := 13
  selectedPlaceId := none
  previousViewState := none
  searchResultsBackup := none

/-! ## Theorems -/


theorem digitP_bounds {c : Char} (h : digitP c = true) : 48 ≤ c.toNat ∧ c.toNat ≤ 57 := by
  simpa [digitP, Bool.and_eq_true, decide_eq_true_eq] using h

theorem wsP_of_digit {c : Char} (h : digitP c = true) : wsP c = false := by
  obtain ⟨h1, h2⟩ := digitP_bounds h
  simp only [wsP, Bool.or_eq_false_iff, beq_eq_false_iff_ne, ne_eq,
    Bool.and_eq_false_iff, decide_eq_false_iff_not]
  omega

theorem beq_false_of_digit {c d : Char} (h : digitP c = true) (hd : digitP d = false) :
    (c == d) = false := by
  refine beq_eq_false_iff_ne.mpr fun he => ?_
  subst he
  rw [h] at hd
  cases hd

theorem takeWhile_all {p : Char → Bool} :
    ∀ {l : List Char}, (∀ c ∈ l, p c = true) → l.takeWhile p = l := by
  intro l
  induction l with
  | nil => intro _; rfl
  | cons x t ih =>
    intro h
    simp [List.takeWhile_cons, h x (List.mem_cons_self x t), ih
      (fun c hc => h c (List.mem_cons_of_mem _ hc))]

theorem digitsToNat_snoc (xs : List Char) (c : Char) :
    digitsToNat (xs ++ [c]) = digitsToNat xs * 10 + (c.toNat - 48) := by
  simp [digitsToNat, List.foldl_append]

theorem digitChar_toNat {d : Nat} (h : d < 10) : (digitChar d).toNat = 48 + d := by
  interval_cases d <;> decide

theorem digitP_digitChar {d : Nat} (h : d < 10) : digitP (digitChar d) = true := by
  interval_cases d <;> decide

theorem natCharsAux_spec :
    ∀ (fuel n : Nat), n < fuel →
      natCharsAux fuel n ≠ [] ∧ (∀ c ∈ natCharsAux fuel n, digitP c = true) ∧
        digitsToNat (natCharsAux fuel n) = n := by
  intro fuel
  induction fuel with
  | zero => intro n h; omega
  | succ fuel ih =>
    intro n hn
    by_cases h10 : n < 10
    · refine ⟨by simp [natCharsAux, h10], ?_, ?_⟩
      · intro c hc
        simp only [natCharsAux, if_pos h10, List.mem_singleton] at hc
        subst hc
        exact digitP_digitChar h10
      · simp only [natCharsAux, if_pos h10]
        have := digitChar_toNat h10
        simp [digitsToNat, this]
    · have hdiv : n / 10 < fuel := by
        have := Nat.div_lt_self (by omega : 0 < n) (by norm_num : 1 < 10)
        omega
      obtain ⟨ihne, ihall, ihval⟩ := ih (n / 10) hdiv
      refine ⟨by simp [natCharsAux, h10], ?_, ?_⟩
      · intro c hc
        simp only [natCharsAux, if_neg h10, List.mem_append, List.mem_singleton] at hc
        rcases hc with hc | hc
        · exact ihall c hc
        · subst hc
          exact digitP_digitChar (Nat.mod_lt _ (by norm_num))
      · simp only [natCharsAux, if_neg h10]
        rw [digitsToNat_snoc, ihval, digitChar_toNat (Nat.mod_lt _ (by norm_num))]
        omega

theorem natChars_ne_nil (n : Nat) : natChars n ≠ [] :=
  (natCharsAux_spec (n + 1) n (by omega)).1

theorem natChars_digits (n : Nat) : ∀ c ∈ natChars n, digitP c = true :=
  (natCharsAux_spec (n + 1) n (by omega)).2.1

theorem natChars_val (n : Nat) : digitsToNat (natChars n) = n :=
  (natCharsAux_spec (n + 1) n (by omega)).2.2

theorem parseDecimal_digits (ds : List Char) (hall : ∀ c ∈ ds, digitP c = true)
    (hne : ds ≠ []) : parseDecimal ds = some ⟨(digitsToNat ds : Int), 0⟩ := by
  match ds, hne with
  | d :: dtl, _ =>
    have hd : digitP d = true := hall d (List.mem_cons_self d dtl)
    have hws : wsP d = false := wsP_of_digit hd
    have hminus : (d == '-') = false := beq_false_of_digit hd (by decide)
    have hplus : (d == '+') = false := beq_false_of_digit hd (by decide)
    have htake : (d :: dtl).takeWhile digitP = d :: dtl := takeWhile_all hall
    simp only [parseDecimal, List.dropWhile_cons, hws, Bool.false_eq_true, if_false,
      List.head?_cons, Option.any_some, hminus, hplus, Bool.or_self, Bool.false_eq_true,
      if_false, htake, List.drop_length, List.head?_nil, Option.any_none,
      Bool.false_eq_true, List.takeWhile_nil]
    simp [digitsToNat]

/-- Greedy `\d+`-tail traversal: if the continuation rejects every
digit-headed suffix, the greedy star consumes exactly the leading digits. -/
theorem starG_skip_digits (k : K)
    (hk : ∀ (x : Char) (t : List Char) (pos : Nat) (caps : Caps),
      digitP x = true → k (x :: t) pos caps = none) :
    ∀ (ds rest : List Char) (pos : Nat) (caps : Caps),
      (∀ c ∈ ds, digitP c = true) →
      (rest.head?.all fun c => !(digitP c)) = true →
      starG digitP k (ds ++ rest) pos caps = k rest (pos + ds.length) caps := by
  intro ds
  induction ds with
  | nil =>
    intro rest pos caps _ hstop
    match rest with
    | [] => simp [starG]
    | x :: t =>
      simp only [List.head?_cons, Option.all, Bool.not_eq_true'] at hstop
      simp [starG, hstop]
  | cons d ds ih =>
    intro rest pos caps hall hstop
    have hd : digitP d = true := hall d (List.mem_cons_self d ds)
    have harith : pos + 1 + ds.length = pos + (d :: ds).length := by
      simp only [List.length_cons]
      omega
    simp only [List.cons_append, starG, hd, if_true, List.append_eq]
    rw [ih rest (pos + 1) caps (fun c hc => hall c (List.mem_cons_of_mem _ hc)) hstop,
      hk d _ pos caps hd, harith]
    cases k rest (pos + (d :: ds).length) caps <;> rfl

/-- `lit1` for a non-digit literal rejects digit-headed input. -/
theorem lit1_none_on_digit {c : Char} (hc : digitP c = false) (k : K) :
    ∀ (x : Char) (t : List Char) (pos : Nat) (caps : Caps),
      digitP x = true → lit1 c k (x :: t) pos caps = none := by
  intro x t pos caps hx
  simp [lit1, beq_false_of_digit hx hc]

/-- After the integer digits, `numTail` (optional fraction, close group,
continue) rejects digit-headed input whenever its continuation does. -/
theorem numTail_none_on_digit (setW setF : Nat × Nat → Caps → Caps) (k : K) (start : Nat)
    (hk : ∀ (x : Char) (t : List Char) (pos : Nat) (caps : Caps),
      digitP x = true → k (x :: t) pos caps = none) :
    ∀ (x : Char) (t : List Char) (pos : Nat) (caps : Caps),
      digitP x = true → numTail setW setF k start (x :: t) pos caps = none := by
  intro x t pos caps hx
  have hdot : (x == '.') = false := beq_false_of_digit hx (by decide)
  simp [numTail, optP, grp, lit1, hdot, hk x t pos _ hx]

theorem lngPart_eval : ∀ (pos : Nat) (caps : Caps),
    (lit1 ','
        (starG wsP (altK (litCI "lng:".toList) (litCI "longitude:".toList)
          (starG wsP (numPat Caps.setG4 Caps.setG5 (lit1 ')' kdone))))))
        (',' :: ' ' :: 'l' :: 'n' :: 'g' :: ':' :: ' ' :: '0' :: ')' :: []) pos caps =
      some ⟨pos + 9, Caps.setG4 (pos + 7, pos + 8) caps⟩ := by
  have h1 : ∀ (pos : Nat) (caps : Caps),
      numPat Caps.setG4 Caps.setG5 (lit1 ')' kdone) ('0' :: ')' :: []) pos caps =
        some ⟨pos + 2, Caps.setG4 (pos, pos + 1) caps⟩ := by
    intro pos caps
    simp +decide only [numPat, optP, lit1, plusG, charP, starG, numTail, grp, kdone,
      Option.none_orElse, Option.some_orElse, if_true, if_false]
  intro pos caps
  simp +decide only [lit1, starG, altK, litCI, charP, h1,
    Option.none_orElse, Option.some_orElse, if_true, if_false, String.toList]

theorem latNum_eval (d : Char) (dtl : List Char)
    (hall : ∀ c ∈ d :: dtl, digitP c = true) :
    ∀ (caps : Caps),
      numPat Caps.setG2 Caps.setG3
          (lit1 ','
            (starG wsP (altK (litCI "lng:".toList) (litCI "longitude:".toList)
              (starG wsP (numPat Caps.setG4 Caps.setG5 (lit1 ')' kdone))))))
          ((d :: dtl) ++ [',', ' ', 'l', 'n', 'g', ':', ' ', '0', ')']) 6 caps =
        some ⟨15 + (d :: dtl).length,
          Caps.setG4 (13 + (d :: dtl).length, 14 + (d :: dtl).length)
            (Caps.setG2 (6, 6 + (d :: dtl).length) caps)⟩ := by
  intro caps
  have hd : digitP d = true := hall d (List.mem_cons_self d dtl)
  have hminus : (d == '-') = false := beq_false_of_digit hd (by decide)
  have hskip := starG_skip_digits
    (numTail Caps.setG2 Caps.setG3
      (lit1 ','
        (starG wsP (altK (litCI "lng:".toList) (litCI "longitude:".toList)
          (starG wsP (numPat Caps.setG4 Caps.setG5 (lit1 ')' kdone)))))) 6)
    (numTail_none_on_digit _ _ _ _
      (lit1_none_on_digit (by decide) _))
    dtl [',', ' ', 'l', 'n', 'g', ':', ' ', '0', ')'] 7 caps
    (fun c hc => hall c (List.mem_cons_of_mem _ hc)) (by decide)
  simp +decide only [numPat, optP, lit1, hminus, plusG, charP, hd,
    Option.none_orElse, Option.some_orElse, if_true, if_false, List.cons_append] at hskip ⊢
  rw [hskip]
  simp +decide only [numTail, optP, grp, lit1, lngPart_eval,
    Option.none_orElse, Option.some_orElse, if_true, if_false]
  have h1b : ∀ (pos : Nat) (caps : Caps),
      numPat Caps.setG4 Caps.setG5 (lit1 ')' kdone) ('0' :: ')' :: []) pos caps =
        some ⟨pos + 2, Caps.setG4 (pos, pos + 1) caps⟩ := by
    intro pos caps
    simp +decide only [numPat, optP, lit1, plusG, charP, starG, numTail, grp, kdone,
      Option.none_orElse, Option.some_orElse, if_true, if_false]
  simp +decide only [starG, altK, litCI, charP, h1b,
    Option.none_orElse, Option.some_orElse, if_true, if_false, String.toList]
  simp only [Option.some.injEq, MatchRes.mk.injEq, List.length_cons]
  refine ⟨by omega, ?_⟩
  have e1 : 7 + dtl.length + 1 + 1 + 1 + 1 + 1 + 1 + 1 = 13 + (dtl.length + 1) := by omega
  have e2 : 7 + dtl.length + 1 + 1 + 1 + 1 + 1 + 1 + 1 + 1 = 14 + (dtl.length + 1) := by omega
  have e3 : 7 + dtl.length = 6 + (dtl.length + 1) := by omega
  rw [e2, e1, e3]

theorem tryMatch_latOnly (d : Char) (dtl : List Char)
    (hall : ∀ c ∈ d :: dtl, digitP c = true) :
    tryMatch ('(' :: 'l' :: 'a' :: 't' :: ':' :: ' ' ::
        ((d :: dtl) ++ [',', ' ', 'l', 'n', 'g', ':', ' ', '0', ')'])) 0 =
      some ⟨15 + (d :: dtl).length,
        { g1 := some (0, 0), g2 := some (6, 6 + (d :: dtl).length), g3 := none,
          g4 := some (13 + (d :: dtl).length, 14 + (d :: dtl).length), g5 := none }⟩ := by
  have hd : digitP d = true := hall d (List.mem_cons_self d dtl)
  have hwsd : wsP d = false := wsP_of_digit hd
  have hdotd : dotP d = true := by
    obtain ⟨h1, h2⟩ := digitP_bounds hd
    simp only [dotP, Bool.not_eq_true', Bool.or_eq_false_iff, beq_eq_false_iff_ne, ne_eq]
    omega
  have hparen : (d == '(') = false := beq_false_of_digit hd (by decide)
  have hlat := latNum_eval d dtl hall
  simp +decide only [List.cons_append, litCI, String.toList, Nat.reduceAdd] at hlat
  have hannot : ∀ caps : Caps,
      annotPat kdone ('(' :: 'l' :: 'a' :: 't' :: ':' :: ' ' ::
          (d :: (dtl ++ [',', ' ', 'l', 'n', 'g', ':', ' ', '0', ')']))) 0 caps =
        some ⟨15 + (d :: dtl).length,
          Caps.setG4 (13 + (d :: dtl).length, 14 + (d :: dtl).length)
            (Caps.setG2 (6, 6 + (d :: dtl).length) caps)⟩ := by
    intro caps
    simp +decide only [annotPat, lit1, altK, litCI, charP, starG, hwsd, hlat,
      Option.none_orElse, Option.some_orElse, if_true, if_false, String.toList,
      List.length_cons, Nat.reduceAdd]
  simp +decide only [tryMatch, fullPat, startPat, altK, bosK, optP, boldPat, grp,
    starL, lit1, charP, hannot, hdotd, hparen, hwsd,
    Option.none_orElse, Option.some_orElse, if_true, if_false, List.cons_append,
    List.length_cons, Nat.reduceAdd]
  rfl

theorem tryMatch_nil (pos : Nat) (hpos : pos ≠ 0) : tryMatch ([] : List Char) pos = none := by
  have h0 : (pos == 0) = false := beq_eq_false_iff_ne.mpr hpos
  simp +decide only [tryMatch, fullPat, startPat, altK, bosK, lit1, charP, optP,
    boldPat, grp, starL, annotPat, litCI, plusG, starG, h0, if_false,
    Option.none_orElse, Option.some_orElse]

theorem execLoopAux_nil (fuel pos : Nat) (hpos : pos ≠ 0) :
    execLoopAux fuel [] pos = [] := by
  cases fuel with
  | zero => rfl
  | succ f => simp [execLoopAux, searchFrom, tryMatch_nil pos hpos]

theorem execLoop_single (c : Char) (t : List Char) (r : MatchRes)
    (h : searchFrom (c :: t) 0 = some (0, r)) (hstop : r.stop = t.length + 1) :
    execLoop (c :: t) 0 = [r] := by
  have hdrop : (c :: t).drop (r.stop - 0) = [] := by
    apply List.drop_eq_nil_of_le
    simp [hstop]
  simp only [execLoop, List.length_cons, execLoopAux, h, hdrop, List.length_nil]
  rw [if_pos (Nat.zero_lt_succ _)]
  simp only [searchFrom, tryMatch_nil r.stop (by omega : r.stop ≠ 0)]

theorem parse_latOnly (idGen : Nat → String) (ds : List Char)
    (hall : ∀ c ∈ ds, digitP c = true) (hne : ds ≠ []) :
    parseCoordinatesFromText idGen ("(lat: " ++ String.mk ds ++ ", lng: 0)") =
      [⟨idGen 0, "Unknown Location", ⟨⟨(digitsToNat ds : Int), 0⟩, ⟨0, 0⟩⟩⟩] := by
  match ds, hne with
  | d :: dtl, _ =>
  have htext : ("(lat: " ++ String.mk (d :: dtl) ++ ", lng: 0)").toList =
      '(' :: 'l' :: 'a' :: 't' :: ':' :: ' ' ::
        ((d :: dtl) ++ [',', ' ', 'l', 'n', 'g', ':', ' ', '0', ')']) := by
    simp [String.toList, String.data_append]
  have htm := tryMatch_latOnly d dtl hall
  have hsearch : searchFrom ('(' :: 'l' :: 'a' :: 't' :: ':' :: ' ' ::
      ((d :: dtl) ++ [',', ' ', 'l', 'n', 'g', ':', ' ', '0', ')'])) 0 =
      some (0, ⟨15 + (d :: dtl).length,
        { g1 := some (0, 0), g2 := some (6, 6 + (d :: dtl).length), g3 := none,
          g4 := some (13 + (d :: dtl).length, 14 + (d :: dtl).length), g5 := none }⟩) := by
    simp only [searchFrom, htm]
  have hexec := execLoop_single _ _ _ hsearch
    (by simp [List.length_cons, List.length_append]; omega)
  unfold parseCoordinatesFromText
  rw [htext, hexec]
  have hsplit : ('(' :: 'l' :: 'a' :: 't' :: ':' :: ' ' ::
        (d :: (dtl ++ [',', ' ', 'l', 'n', 'g', ':', ' ', '0', ')'])))
      = ('(' :: 'l' :: 'a' :: 't' :: ':' :: ' ' :: d :: dtl) ++
          [',', ' ', 'l', 'n', 'g', ':', ' ', '0', ')'] := by
    simp
  have harith2 : 6 + (d :: dtl).length - 6 = dtl.length + 1 := by
    simp only [List.length_cons]
    omega
  have harith4a : 13 + (d :: dtl).length =
      ('(' :: 'l' :: 'a' :: 't' :: ':' :: ' ' :: d :: dtl).length + 7 := by
    simp only [List.length_cons]
    omega
  have harith4b : 14 + (d :: dtl).length - (13 + (d :: dtl).length) = 1 := by omega
  have hjs : jsTrim [] = [] := rfl
  have hclean : cleanNameOf [] = "Unknown Location" := rfl
  have hct : ∀ (x : Char) (l : List Char), capTruthy (some (x :: l)) = true := fun _ _ => rfl
  have hpd := parseDecimal_digits (d :: dtl) hall (by simp)
  have hp0 : parseDecimal ['0'] = some ⟨0, 0⟩ := rfl
  have htake2 : (dtl ++ [',', ' ', 'l', 'n', 'g', ':', ' ', '0', ')']).take dtl.length
      = dtl := List.take_left dtl _
  have htake2' : List.take (dtl.length + 1)
      (d :: (dtl ++ [',', ' ', 'l', 'n', 'g', ':', ' ', '0', ')'])) = d :: dtl := by
    rw [List.take_succ_cons, htake2]
  have hdrop13 : List.drop (13 + (d :: dtl).length)
      ('(' :: 'l' :: 'a' :: 't' :: ':' :: ' ' ::
        (d :: (dtl ++ [',', ' ', 'l', 'n', 'g', ':', ' ', '0', ')']))) =
      ['0', ')'] := by
    rw [hsplit, harith4a, List.drop_append]
    rfl
  have htake1 : List.take 1 (['0', ')'] : List Char) = ['0'] := rfl
  simp only [buildPlaces, capString, Option.getD_some, Nat.sub_zero, List.take_zero,
    List.drop_zero, List.cons_append, List.drop_succ_cons, hjs, hclean, harith2,
    harith4b, htake2', hdrop13, htake1, hct, Bool.and_self, Bool.and_true,
    Bool.true_and, if_true, hpd, hp0]

/-- Claim C1, amended: the extractor performs no range validation — for
every natural `n > 90`, the text `(lat: n, lng: 0)` yields exactly one
Place whose latitude is the out-of-range value `n` itself, published
unchanged (not rejected, not clamped); only a capture that fails numeric
parsing is ever dropped, and the digit captures of this pattern always
parse. -/
theorem C1_amended_no_range_check (idGen : Nat → String) (n : Nat) (h : 90 < n) :
    (parseCoordinatesFromText idGen
        ("(lat: " ++ String.mk (natChars n) ++ ", lng: 0)")).map Place.record =
      [("Unknown Location", ⟨⟨(n : Int), 0⟩, ⟨0, 0⟩⟩)] ∧
    ¬ ((Decimal.mk (n : Int) 0).toRat ≤ 90) := by
  constructor
  · rw [parse_latOnly idGen _ (natChars_digits n) (natChars_ne_nil n), natChars_val]
    rfl
  · rw [not_le]
    simp only [Decimal.toRat, pow_zero, div_one]
    exact_mod_cast h

/-- Claim C1, witness for the amended statement, at `n = 999`. -/
theorem C1_witness :
    (parseCoordinatesFromText (fun _ => "ccccccccc")
        ("(lat: " ++ String.mk (natChars 999) ++ ", lng: 0)")).map Place.record =
      [("Unknown Location", ⟨⟨(999 : Int), 0⟩, ⟨0, 0⟩⟩)] ∧
    ¬ ((Decimal.mk (999 : Int) 0).toRat ≤ 90) :=
  C1_amended_no_range_check (fun _ => "ccccccccc") 999 (by norm_num)

/-- Claim C1, counterexample: on the input `"(lat: 999, lng: 0)"` the
extractor publishes a Place whose latitude is 999, far outside `[-90, 90]`
— the claimed range rejection does not exist (the code checks only
`isNaN`). -/
theorem C1_counterexample_lat999_published :
    ((parseCoordinatesFromText (fun _ => "aaaaaaaaa") "(lat: 999, lng: 0)").map
        (fun p => p.coordinate.lat.toRat) = [(999 : ℚ)]) ∧
    ¬ ((-90 : ℚ) ≤ 999 ∧ (999 : ℚ) ≤ 90) := by
  constructor
  · have h : parseCoordinatesFromText (fun _ => "aaaaaaaaa") "(lat: 999, lng: 0)" =
        [⟨"aaaaaaaaa", "Unknown Location", ⟨⟨999, 0⟩, ⟨0, 0⟩⟩⟩] := by rfl
    rw [h]
    norm_num [Decimal.toRat]
  · norm_num

/-- Claim C4: on the spec's own scenario input the extractor does produce
exactly one Place at `(40.7829, -73.9654)`, but its name is the
`"Unknown Location"` placeholder, not `"Central Park"`: the lazy name
group `(.*?)` of the source pattern is followed by the lazy gap `.*?`, so
the name group always captures the empty string and normalisation
substitutes the placeholder.  This theorem evaluates the extractor at the
failing input. -/
theorem C4_name_capture_always_empty :
    parseCoordinatesFromText (fun _ => "aaaaaaaab")
      "**Central Park** is great (lat: 40.7829, lng: -73.9654) - a big green space." =
      [⟨"aaaaaaaab", "Unknown Location", ⟨⟨407829, 4⟩, ⟨-739654, 4⟩⟩⟩] ∧
    (⟨407829, 4⟩ : Decimal).toRat = 407829 / 10000 ∧
    (⟨-739654, 4⟩ : Decimal).toRat = -739654 / 10000 := by
  refine ⟨by rfl, ?_, ?_⟩ <;> norm_num [Decimal.toRat]

/-- Claim C8, counterexample: the `id` field comes from `Math.random()`,
so two runs of the extractor over the same clean text (modelled by two
possible streams of random draws) yield different record lists. -/
theorem C8_counterexample_ids_differ :
    parseCoordinatesFromText (fun _ => "aaaaaaaaa") "(lat: 1.5, lng: 2)" ≠
    parseCoordinatesFromText (fun _ => "bbbbbbbbb") "(lat: 1.5, lng: 2)" := by
  decide

/-- Claim C8, amended: except for the randomly generated ids, extraction
is a deterministic function of the text — two runs agree on the whole
`(name, coordinate)` record sequence, for every input text. -/
theorem C8_amended_records_deterministic (gA gB : Nat → String) (text : String) :
    (parseCoordinatesFromText gA text).map Place.record =
    (parseCoordinatesFromText gB text).map Place.record := by
  unfold parseCoordinatesFromText
  generalize text.toList = full
  generalize execLoop full 0 = ms
  suffices h : ∀ (ms : List MatchRes) (c1 c2 : Nat),
      (buildPlaces gA full ms c1).map Place.record =
      (buildPlaces gB full ms c2).map Place.record from h ms 0 0
  intro ms
  induction ms with
  | nil => intro c1 c2; rfl
  | cons r rest ih =>
    intro c1 c2
    simp only [buildPlaces]
    split
    · split
      · simp only [List.map_cons, Place.record]
        exact congrArg _ (ih _ _)
      · exact ih _ _
    · exact ih _ _

/-- Claim C2, counterexample: a failing transport call does not leave the
previously published result visible — `handleSearch` clears the published
places/summary/sources synchronously before awaiting the transport, so
after the failure the place list is empty, not the prior one. -/
theorem C2_counterexample_prior_result_wiped :
    (App.handleSearchComplete (App.handleSearchStart App.sampleState)
        (.error ())).places = [] ∧
    App.sampleState.places ≠ [] := by
  exact ⟨rfl, by simp [App.sampleState]⟩

/-- Claim C2, amended: when the transport call fails, the session surfaces
the fixed generic message and the viewport and user location are
untouched, but the prior result does not survive: it was wiped at
submission time, so the published places and sources are empty after the
failure. -/
theorem C2_amended_failure_leaves_cleared_state (s : App.AppState) :
    (App.handleSearchComplete (App.handleSearchStart s) (.error ())).summary =
      App.failureMessage ∧
    (App.handleSearchComplete (App.handleSearchStart s) (.error ())).places = [] ∧
    (App.handleSearchComplete (App.handleSearchStart s) (.error ())).sources = [] ∧
    (App.handleSearchComplete (App.handleSearchStart s) (.error ())).isLoading = false ∧
    (App.handleSearchComplete (App.handleSearchStart s) (.error ())).mapCenter =
      s.mapCenter ∧
    (App.handleSearchComplete (App.handleSearchStart s) (.error ())).mapZoom =
      s.mapZoom ∧
    (App.handleSearchComplete (App.handleSearchStart s) (.error ())).userLocation =
      s.userLocation := by
  exact ⟨rfl, rfl, rfl, rfl, rfl, rfl, rfl⟩

/-- Claim C3, counterexample: submit query A, then query B; B's transport
resolves first and publishes `"B result"`; A's stale completion then
arrives and overwrites it.  After both completions the published summary
is A's, not B's — there is no generation-counter check. -/
theorem C3_counterexample_stale_completion_published :
    (App.handleSearchComplete
        (App.handleSearchComplete
          (App.handleSearchStart (App.handleSearchStart App.sampleState))
          (.ok ⟨"B result", [], []⟩))
        (.ok ⟨"A result", [], []⟩)).summary = "A result" ∧
    ("A result" : String) ≠ "B result" := by
  exact ⟨rfl, by decide⟩

/-- Claim C3, amended: the completion handler performs no staleness check;
every successful completion overwrites the published result wholesale, so
after any two completions the published result is the one that resolved
last — earlier completions leave no trace. -/
theorem C3_amended_last_completion_wins (s : App.AppState)
    (o : Except Unit App.GeminiResponse) (r : App.GeminiResponse) :
    App.handleSearchComplete (App.handleSearchComplete s o) (.ok r) =
      App.handleSearchComplete s (.ok r) ∧
    (App.handleSearchComplete s (.ok r)).summary = r.text ∧
    (App.handleSearchComplete s (.ok r)).places = r.places ∧
    (App.handleSearchComplete s (.ok r)).sources = r.sources := by
  refine ⟨?_, rfl, rfl, rfl⟩
  cases o <;> rfl

/-- Claim C9: `handleMapMove` overwrites the stored user location with the
gesture's new center (beyond updating the viewport), leaves every other
state field unchanged, and the next query dispatched after the move is
biased by exactly that center. -/
theorem C9_map_move_overwrites_user_location (s : App.AppState)
    (c : App.LatLng) (z : ℚ) :
    (App.handleMapMove s c z).userLocation = some c ∧
    (App.handleMapMove s c z).mapCenter = c ∧
    (App.handleMapMove s c z).mapZoom = z ∧
    (App.handleMapMove s c z).places = s.places ∧
    (App.handleMapMove s c z).summary = s.summary ∧
    (App.handleMapMove s c z).sources = s.sources ∧
    (App.handleMapMove s c z).selectedPlaceId = s.selectedPlaceId ∧
    (App.handleMapMove s c z).previousViewState = s.previousViewState ∧
    (App.handleMapMove s c z).searchResultsBackup = s.searchResultsBackup ∧
    App.requestBias (App.handleSearchStart (App.handleMapMove s c z)) = some c := by
  exact ⟨rfl, rfl, rfl, rfl, rfl, rfl, rfl, rfl, rfl, rfl⟩

/-- Claim C10: `removeFromDatabase` keeps exactly the saved places whose
id differs from the given id and whose name differs from the given name;
consequently every saved place bearing the given name is deleted, even
when its id (and coordinates) differ from the targeted place. -/
theorem C10_remove_filters_by_id_and_name (saved : List App.Place)
    (pid pname : String) (p : App.Place) :
    (p ∈ ChatUI.removeFromDatabase saved pid pname ↔
      p ∈ saved ∧ p.id ≠ pid ∧ p.name ≠ pname) ∧
    (p ∈ saved → p.name = pname →
      p ∉ ChatUI.removeFromDatabase saved pid pname) := by
  constructor
  · simp [ChatUI.removeFromDatabase, List.mem_filter]
  · intro hp hname hmem
    have h2 := (List.mem_filter.mp hmem).2
    simp [hname] at h2

/-- Claim C10, witness: removing `("a", "Cafe")` also deletes the saved
place with id `"b"` because it shares the name `"Cafe"`. -/
theorem C10_witness :
    (⟨"b", "Cafe", ⟨1, 1⟩, none⟩ : App.Place) ∉
      ChatUI.removeFromDatabase
        [⟨"a", "Cafe", ⟨0, 0⟩, none⟩, ⟨"b", "Cafe", ⟨1, 1⟩, none⟩] "a" "Cafe" :=
  (C10_remove_filters_by_id_and_name _ _ _ _).2 (by simp) rfl

/-- The duplicate test of `handleSaveAllToDatabase`, spelled out: some
already-accumulated place has the same name and a latitude within `1e-4`
(the longitude is not inspected — that is the deviation claim C7 misses). -/
theorem saveAllStep_dup_iff (acc : List App.Place) (p : App.Place) :
    (acc.any fun q =>
        q.name == p.name &&
          decide (|q.coordinate.lat - p.coordinate.lat| < 1 / 10000)) = true ↔
      ∃ q ∈ acc, q.name = p.name ∧ |q.coordinate.lat - p.coordinate.lat| < 1 / 10000 := by
  simp [List.any_eq_true]

/-- The saved list grows by exactly the reported count across the
`forEach` fold of `handleSaveAllToDatabase`. -/
theorem foldl_saveAllStep_length (ps : List App.Place) :
    ∀ (db : List App.Place) (n : Nat),
      (List.foldl ChatUI.saveAllStep (db, n) ps).1.length + n =
        db.length + (List.foldl ChatUI.saveAllStep (db, n) ps).2 := by
  induction ps with
  | nil => intro db n; simp
  | cons p ps ih =>
    intro db n
    simp only [List.foldl_cons]
    have hstep : ChatUI.saveAllStep (db, n) p = (db, n) ∨
        ChatUI.saveAllStep (db, n) p = (db ++ [p], n + 1) := by
      simp only [ChatUI.saveAllStep]
      split
      · exact Or.inl rfl
      · exact Or.inr rfl
    rcases hstep with h | h
    · rw [h]; exact ih db n
    · rw [h]
      have h2 := ih (db ++ [p]) (n + 1)
      simp only [List.length_append, List.length_cons, List.length_nil] at h2
      omega

/-- Claim C7, counterexample: a current result place with the same name
and latitude as a stored place but a longitude 100 degrees away is still
treated as a duplicate — `saveAll` adds nothing and reports 0, although
the claim's duplicate criterion (both coordinates within tolerance) does
not hold. -/
theorem C7_counterexample_longitude_ignored :
    ChatUI.handleSaveAllToDatabase
        [⟨"id1", "A", ⟨10, 20⟩, none⟩] [⟨"id2", "A", ⟨10, 120⟩, none⟩] =
      ([⟨"id1", "A", ⟨10, 20⟩, none⟩], 0) ∧
    ¬ (|(20 : ℚ) - 120| < 1 / 10000) := by
  constructor
  · have hd : (((10 : ℚ)) - 10) = 0 := by norm_num
    simp only [ChatUI.handleSaveAllToDatabase, List.foldl_cons, List.foldl_nil,
      ChatUI.saveAllStep, List.any_cons, List.any_nil]
    norm_num
  · norm_num

/-- Claim C7, amended: each place of the current result is skipped as a
duplicate exactly when some already-stored place (including places
appended earlier in the same call) has the identical name and a latitude
within `1e-4`; the longitude and the id play no role in the test.  The
reported count equals the number of newly appended places. -/
theorem C7_amended_dedup_name_and_latitude_only :
    (∀ (acc : List App.Place) (n : Nat) (p : App.Place),
      ChatUI.saveAllStep (acc, n) p =
        if ∃ q ∈ acc, q.name = p.name ∧ |q.coordinate.lat - p.coordinate.lat| < 1 / 10000
        then (acc, n) else (acc ++ [p], n + 1)) ∧
    (∀ (currentSaved places : List App.Place),
      (ChatUI.handleSaveAllToDatabase currentSaved places).1.length =
        currentSaved.length + (ChatUI.handleSaveAllToDatabase currentSaved places).2) := by
  constructor
  · intro acc n p
    by_cases hex : ∃ q ∈ acc,
        q.name = p.name ∧ |q.coordinate.lat - p.coordinate.lat| < 1 / 10000
    · have hb := (saveAllStep_dup_iff acc p).mpr hex
      simp [ChatUI.saveAllStep, hb, hex]
    · have hb : ¬ ((acc.any fun q =>
          q.name == p.name &&
            decide (|q.coordinate.lat - p.coordinate.lat| < 1 / 10000)) = true) :=
        fun hb => hex ((saveAllStep_dup_iff acc p).mp hb)
      simp [ChatUI.saveAllStep, hb, hex]
  · intro currentSaved places
    have h := foldl_saveAllStep_length places currentSaved 0
    unfold ChatUI.handleSaveAllToDatabase
    omega

/-- Any box a fold step of `L.latLngBounds` produces still contains
whatever the incoming box contained. -/
theorem boundsFold_mono (l : List (ℚ × ℚ)) :
    ∀ (bd : MapC.Bounds) (x : ℚ × ℚ), bd.contains x →
      (l.foldl (fun bd pt => MapC.Bounds.mk (min bd.south pt.1) (min bd.west pt.2)
        (max bd.north pt.1) (max bd.east pt.2)) bd).contains x := by
  induction l with
  | nil => intro bd x hx; simpa using hx
  | cons q l ih =>
    intro bd x hx
    refine ih _ x ?_
    obtain ⟨h1, h2, h3, h4⟩ := hx
    exact ⟨le_trans (min_le_left _ _) h1, le_trans h2 (le_max_left _ _),
      le_trans (min_le_left _ _) h3, le_trans h4 (le_max_left _ _)⟩

/-- Every point folded into a `L.latLngBounds` box ends up inside it. -/
theorem boundsFold_contains_mem (l : List (ℚ × ℚ)) :
    ∀ (bd : MapC.Bounds) (pt : ℚ × ℚ), pt ∈ l →
      (l.foldl (fun bd pt => MapC.Bounds.mk (min bd.south pt.1) (min bd.west pt.2)
        (max bd.north pt.1) (max bd.east pt.2)) bd).contains pt := by
  induction l with
  | nil => intro bd pt hpt; cases hpt
  | cons y l ih =>
    intro bd pt hpt
    rcases List.mem_cons.mp hpt with hy | hl
    · subst hy
      simp only [List.foldl_cons]
      exact boundsFold_mono l _ _
        ⟨min_le_right _ _, le_max_right _ _, min_le_right _ _, le_max_right _ _⟩
    · simp only [List.foldl_cons]
      exact ih _ _ hl

/-- `L.latLngBounds` over a nonempty point list yields a valid box
containing every point. -/
theorem mkBounds_contains (pts : List (ℚ × ℚ)) (b : MapC.Bounds)
    (h : MapC.mkBounds pts = some b) : ∀ pt ∈ pts, b.contains pt := by
  match pts with
  | [] => simp [MapC.mkBounds] at h
  | q :: rest =>
    simp only [MapC.mkBounds, Option.some.injEq] at h
    intro pt hpt
    rcases List.mem_cons.mp hpt with hq | hrest
    · subst hq
      rw [← h]
      exact boundsFold_mono rest _ _
        ⟨le_refl _, le_refl _, le_refl _, le_refl _⟩
    · rw [← h]
      exact boundsFold_contains_mem rest _ _ hrest

/-- Claim C5, counterexample: an update whose place set is a genuinely new
(fresh-reference) non-empty array, but whose only place has a `NaN`
latitude, emits no transition at all — the claim as stated requires a
fit-to-bounds transition for every new non-empty set. -/
theorem C5_counterexample_no_fit_for_invalid_places :
    MapC.mapUpdaterEffect ⟨some 0, some 0⟩ 13
        ⟨1, [⟨"x", "P", ⟨none, some 0⟩⟩]⟩ 0 ⟨some 0, some 0⟩ 13 = (none, 1) ∧
    ([⟨"x", "P", ⟨none, some 0⟩⟩] : List MapC.MPlace) ≠ [] ∧ (1 : Nat) ≠ 0 := by
  refine ⟨by rfl, by simp, by decide⟩

/-- Claim C5, amended: provided the update's candidate center is a valid
coordinate and the new (fresh-reference) place set contains at least one
valid-coordinate place, the reconciler emits exactly one fit-to-bounds
transition over a box enclosing every valid-coordinate place, with the
fixed padding 50 and the zoom cap 16, and the candidate center/zoom of the
same update are ignored; an update whose place set is the identical array
object never emits fit-to-bounds, whatever else it does. -/
theorem C5_amended_fit_bounds_behaviour :
    (∀ (center : MapC.JLatLng) (zoom : ℚ) (places : MapC.PlacesObj) (prevRef : Nat)
        (mapCenter : MapC.JLatLng) (mapZoom : ℚ),
      MapC.isValidLatLng center.lat center.lng = true →
      places.ref ≠ prevRef →
      MapC.validItems places ≠ [] →
      ∃ b : MapC.Bounds,
        MapC.mapUpdaterEffect center zoom places prevRef mapCenter mapZoom =
          (some (.fitBounds b 50 50 16), places.ref) ∧
        ∀ p ∈ MapC.validItems places,
          b.contains (p.coordinate.lat.getD 0, p.coordinate.lng.getD 0)) ∧
    (∀ (center : MapC.JLatLng) (zoom : ℚ) (places : MapC.PlacesObj) (prevRef : Nat)
        (mapCenter : MapC.JLatLng) (mapZoom : ℚ),
      places.ref = prevRef →
      ∀ (b : MapC.Bounds) (padX padY : Nat) (mz : ℚ),
        (MapC.mapUpdaterEffect center zoom places prevRef mapCenter mapZoom).1 ≠
          some (.fitBounds b padX padY mz)) := by
  constructor
  · intro center zoom places prevRef mapCenter mapZoom hc href hvalid
    have hitems : places.items ≠ [] := by
      intro h0
      apply hvalid
      simp [MapC.validItems, h0]
    have hlen : places.items.length > 0 := List.length_pos.mpr hitems
    have hvlen : (MapC.validItems places).length > 0 := List.length_pos.mpr hvalid
    have hptsne : MapC.validPoints places ≠ [] := by
      simp [MapC.validPoints, hvalid]
    obtain ⟨b, hb⟩ : ∃ b, MapC.mkBounds (MapC.validPoints places) = some b := by
      rcases hmap : MapC.validPoints places with _ | ⟨q, l⟩
      · exact absurd hmap hptsne
      · exact ⟨_, rfl⟩
    refine ⟨b, ?_, ?_⟩
    · unfold MapC.mapUpdaterEffect
      rw [if_neg (by simp [hc]), if_pos ⟨href, hlen⟩, if_pos hvlen, hb]
    · intro p hp
      exact mkBounds_contains _ b hb _
        (by exact List.mem_map_of_mem _ hp)
  · intro center zoom places prevRef mapCenter mapZoom href b padX padY mz
    unfold MapC.mapUpdaterEffect
    split
    · simp
    · rw [if_neg (by simp [href])]
      split
      · simp
      · split
        · simp
        · simp

/-- Claim C5, witness for the amended statement: a fresh one-place set at
`(3, 4)` with a valid center emits the fit-to-bounds transition. -/
theorem C5_witness :
    ∃ b : MapC.Bounds,
      MapC.mapUpdaterEffect ⟨some 0, some 0⟩ 13 ⟨2, [⟨"i", "P", ⟨some 3, some 4⟩⟩]⟩ 0
          ⟨some 0, some 0⟩ 13 = (some (.fitBounds b 50 50 16), 2) ∧
      ∀ p ∈ MapC.validItems ⟨2, [⟨"i", "P", ⟨some 3, some 4⟩⟩]⟩,
        b.contains (p.coordinate.lat.getD 0, p.coordinate.lng.getD 0) :=
  C5_amended_fit_bounds_behaviour.1 ⟨some 0, some 0⟩ 13
    ⟨2, [⟨"i", "P", ⟨some 3, some 4⟩⟩]⟩ 0 ⟨some 0, some 0⟩ 13
    (by decide) (by decide) (by decide)

/-- Claim C6: with an unchanged (identical-reference) place set and valid
candidate and current centers, the reconciler emits the animated
`flyTo(candidate, candidateZoom)` of duration 1.5 exactly when the squared
straight-line degree distance between the centers exceeds `0.0001²` or the
zoom differs; a gesture-completion report that exactly equals the current
viewport is a no-op. -/
theorem C6_fly_to_iff_moved (clat clng plat plng zoom mapZoom : ℚ)
    (places : MapC.PlacesObj) (prevRef : Nat) (hsame : places.ref = prevRef) :
    (MapC.mapUpdaterEffect ⟨some plat, some plng⟩ zoom places prevRef
        ⟨some clat, some clng⟩ mapZoom =
        (some (.flyTo plat plng zoom (3 / 2)), prevRef) ↔
      ((clat - plat) ^ 2 + (clng - plng) ^ 2 > 1 / 100000000 ∨ mapZoom ≠ zoom)) ∧
    MapC.mapUpdaterEffect ⟨some plat, some plng⟩ zoom places prevRef
        ⟨some plat, some plng⟩ zoom = (none, prevRef) := by
  constructor
  · unfold MapC.mapUpdaterEffect
    rw [if_neg (by simp [MapC.isValidLatLng])]
    rw [if_neg (by simp [hsame])]
    rw [if_neg (by simp [MapC.isValidLatLng])]
    simp only [Option.getD_some]
    split
    · rename_i hcond
      exact iff_of_true rfl hcond
    · rename_i hcond
      exact iff_of_false (by simp) hcond
  · unfold MapC.mapUpdaterEffect
    rw [if_neg (by simp [MapC.isValidLatLng])]
    rw [if_neg (by simp [hsame])]
    rw [if_neg (by simp [MapC.isValidLatLng])]
    simp only [Option.getD_some]
    rw [if_neg (by push_neg; exact ⟨by norm_num, rfl⟩)]

/-- Claim C6, witness: a candidate center one degree away from the current
center triggers the fly-to; and a report equal to the current viewport is
a no-op. -/
theorem C6_witness :
    MapC.mapUpdaterEffect ⟨some 1, some 0⟩ 13 ⟨3, []⟩ 3 ⟨some 0, some 0⟩ 13 =
      (some (.flyTo 1 0 13 (3 / 2)), 3) ∧
    MapC.mapUpdaterEffect ⟨some 5, some 6⟩ 13 ⟨3, []⟩ 3 ⟨some 5, some 6⟩ 13 =
      (none, 3) :=
  ⟨(C6_fly_to_iff_moved 0 0 1 0 13 13 ⟨3, []⟩ 3 rfl).1.mpr (by norm_num),
   (C6_fly_to_iff_moved 5 6 5 6 13 13 ⟨3, []⟩ 3 rfl).2⟩

end MapApp
